import Mathlib

/-!
# Verification of the chi `Mux` routing core (`src/mux.go`)

This file shallowly embeds the routing/dispatch engine of the `chi` HTTP
router.  The repository's source provides only `mux.go`; the radix-tree
pattern store (`tree.go`), the routing `Context` (`context.go`) and the
method bitmask table live outside the provided sources, so those parts are
modelled from the specification's §3 data model and §6 PatternStore
contract, marked `Modelled from the spec:` on each definition.  Everything
else is a direct translation of `mux.go`.

Go side effects are made explicit: the tree heap and the mux value are
threaded through registration operations, `panic` becomes `Except.error`,
and in-place mutation of the routing context is modelled by handlers of
type `Request → Context → Response × Context`.
-/

namespace Chi

/-- Middleware values are opaque to the mux; we only track identity and order. -/
abbrev Middleware := Nat

/-- Responses are opaque to the routing core (handlers write them through
`http.ResponseWriter`); we only track which value a handler produced. -/
abbrev Response := Nat

/-- Modelled from the spec: the method bitmask constants (`tree.go` is not in
the provided sources).  §3: "a bit-flag value over {CONNECT, DELETE, GET,
HEAD, OPTIONS, PATCH, POST, PUT, TRACE, ANY, STUB}".  `_STUB` is the synthetic
flag that never matches a real request method. -/
def mSTUB : Nat := 1

def mCONNECT : Nat := 2

def mDELETE : Nat := 4

def mGET : Nat := 8

def mHEAD : Nat := 16

def mOPTIONS : Nat := 32

def mPATCH : Nat := 64

def mPOST : Nat := 128

def mPUT : Nat := 256

def mTRACE : Nat := 512

/-- Modelled from the spec: `ANY` equals the union of all nine real methods. -/
def ANY : Nat :=
  mCONNECT ||| mDELETE ||| mGET ||| mHEAD ||| mOPTIONS ||| mPATCH ||| mPOST ||| mPUT ||| mTRACE

/-- Modelled from the spec: the `_STUB` synthetic flag marking mount placeholders. -/
def STUB : Nat := mSTUB

/-- Modelled from the spec: `MethodMap` translates a request method string to
its bitmask flag; lookup failure signals an unsupported method (§4.1
`flagFor`).  The table holds exactly the nine real methods. -/
def MethodMap (s : String) : Option Nat :=
  if s = "CONNECT" then some mCONNECT
  else if s = "DELETE" then some mDELETE
  else if s = "GET" then some mGET
  else if s = "HEAD" then some mHEAD
  else if s = "OPTIONS" then some mOPTIONS
  else if s = "PATCH" then some mPATCH
  else if s = "POST" then some mPOST
  else if s = "PUT" then some mPUT
  else if s = "TRACE" then some mTRACE
  else none

/-- Handlers are tracked symbolically so theorems can identify *which*
handler a route maps to.  `user` is an opaque caller-supplied handler,
`defaultNotFound` is `http.NotFound`, `mountForward h` is the forwarding
wrapper that `Mount` builds around its target `h` (mux.go:261-265), and
`chained mws h` is `Chain(mws...).Handler(h)`, the inline-middleware wrap
performed by `handle` (mux.go:335). -/
inductive HandlerRef where
  | user : Nat → HandlerRef
  | defaultNotFound : HandlerRef
  | mountForward : HandlerRef → HandlerRef
  | chained : List Middleware → HandlerRef → HandlerRef
  deriving DecidableEq, Repr

/-- `chain(middlewares, endpoint)`: per §4.2, composing an empty sequence
returns the terminal handler unchanged; otherwise the handler is wrapped by
the sequence (tracked symbolically). -/
def chainWrap (mws : List Middleware) (h : HandlerRef) : HandlerRef :=
  if mws = [] then h else .chained mws h

/-- Modelled from the spec: the per-request routing `Context`
(`context.go` is not in the provided sources).  §3: a parameter mapping
(keys unique), an override `RoutePath` (empty means "use the request's real
path"), and a back-reference to the enclosing request scope. -/
structure Context where
  params : List (String × String)
  routePath : String
  parent : Nat
  deriving DecidableEq, Repr

/-- Modelled from the spec: `Params.Del(key)` removes the entry for `key`
from the parameter mapping and returns its captured value (empty string when
absent).  Consumed by the mount-forwarding wrapper (§6 Find, §4.6 step 3). -/
def paramsDel (ps : List (String × String)) (key : String) :
    List (String × String) × String :=
  (ps.filter (fun p => p.1 ≠ key), ((ps.find? (fun p => p.1 = key)).map Prod.snd).getD "")

/-- Parameter lookup (first binding wins; keys are unique per §3). -/
def paramsGet (ps : List (String × String)) (key : String) : Option String :=
  (ps.find? (fun p => p.1 = key)).map Prod.snd

/-- Modelled from the spec: `Context.reset` clears all mutable fields —
"parameters cleared, override path cleared" (§3 lifecycle). -/
def Context.reset (c : Context) : Context :=
  { c with params := [], routePath := "" }

/-- Modelled from the spec: `NewRouteContext` produces a fresh zeroed context
(the pool's `New` function, mux.go:48-50). -/
def NewRouteContext : Context :=
  { params := [], routePath := "", parent := 0 }

/-- A route entry stored in the pattern store: the pattern, the sequence of
(method-set, handler) registrations merged at this pattern, and the optional
mounted sub-router reference (`node.subrouter`, mux.go:280). -/
structure RouteEntry where
  pattern : String
  regs : List (Nat × HandlerRef)
  subrouter : Option Nat
  deriving DecidableEq, Repr

/-- Modelled from the spec: the PatternStore is kept abstract (§6); we use an
entry list merged by pattern, which realises the `Insert` contract: "must
support repeated insertion of different method-sets at the same pattern
(merging into one logical route entry)". -/
abbrev Tree := List RouteEntry

/-- Tree heap: `Mux.tree` is a *reference* shared between a parent router and
its inline routers (`Chain` copies the pointer, mux.go:191), so trees live in
a heap indexed by `Mux.tree`. -/
abbrev TreeHeap := List Tree

def getTree (heap : TreeHeap) (id : Nat) : Tree :=
  heap.getD id []

/-- Modelled from the spec: `HasPattern` — exact pattern existence check,
used by `Mount`'s conflict detection (`tree.findPattern`, mux.go:250). -/
def hasPattern (t : Tree) (pattern : String) : Bool :=
  t.any (fun e => e.pattern = pattern)

/-- Modelled from the spec: `Insert(methodSet, pattern, handler)` — stores
the binding, merging registrations at an existing pattern into its entry;
returns the updated tree and the index of the entry (the route handle). -/
def insertRoute (t : Tree) (method : Nat) (pattern : String) (h : HandlerRef) :
    Tree × Nat :=
  match t.findIdx? (fun e => e.pattern = pattern) with
  | some i =>
      (t.map (fun e => if e.pattern = pattern then { e with regs := e.regs ++ [(method, h)] } else e), i)
  | none =>
      (t ++ [{ pattern := pattern, regs := [(method, h)], subrouter := none }], t.length)

/-- Look up the entry stored at an exact pattern. -/
def findEntry (t : Tree) (pattern : String) : Option RouteEntry :=
  t.find? (fun e => e.pattern = pattern)

/-- The built `mx.handler`: `chain(mx.middlewares, http.HandlerFunc(mx.routeHTTP))`
(mux.go:316).  We record the middleware stack it locked in. -/
structure BuiltHandler where
  mws : List Middleware
  deriving DecidableEq, Repr

/-- The `Mux` value (mux.go:22-42): a tree reference, the middleware stack,
the inline flag, the lazily-built composed handler, and the optional
not-found override.  The `sync.Pool` is passed explicitly at dispatch. -/
structure Mux where
  tree : Nat
  middlewares : List Middleware
  inline : Bool
  handler : Option BuiltHandler
  notFoundHandler : Option HandlerRef
  deriving DecidableEq, Repr

/-- `NewMux` (mux.go:46-52) with its fresh empty tree allocated at heap
index `tid`. -/
def newMux (tid : Nat) : Mux :=
  { tree := tid, middlewares := [], inline := false, handler := none, notFoundHandler := none }

/-- `Mux.NotFoundHandler` (mux.go:303-309): the explicit override if set,
else the default 404 responder `http.NotFound`. -/
def Mux.notFound (mx : Mux) : HandlerRef :=
  match mx.notFoundHandler with
  | some h => h
  | none => .defaultNotFound

/-- `Mux.buildRouteHandler` (mux.go:315-317). -/
def Mux.buildRouteHandler (mx : Mux) : Mux :=
  { mx with handler := some { mws := mx.middlewares } }

/-- `Mux.Use` (mux.go:87-92): panics if the composed handler is already
built, else appends to the middleware stack. -/
def Use (mx : Mux) (mws : List Middleware) : Except String Mux :=
  if mx.handler.isSome then
    .error "chi: all middlewares must be defined before routes on a mux"
  else
    .ok { mx with middlewares := mx.middlewares ++ mws }

/-- The mux-state effect of `handle` (mux.go:326-334): build the composed
handler when this mux is not inline and it is unbuilt; when inline, assign
`routeHTTP` (with no locked middlewares) as the handler. -/
def sealMux (mx : Mux) : Mux :=
  let mx1 := if ¬mx.inline ∧ mx.handler = none then mx.buildRouteHandler else mx
  if mx1.inline then { mx1 with handler := some { mws := [] } } else mx1

/-- The endpoint stored by `handle` (mux.go:331-338): on an inline mux the
handler is wrapped with the inline middleware chain, else stored as-is. -/
def storedHandler (mx : Mux) (h : HandlerRef) : HandlerRef :=
  if mx.inline then chainWrap mx.middlewares h else h

/-- `Mux.handle` (mux.go:321-342): validates the pattern is '/'-rooted,
builds the composed handler when needed, wraps the endpoint with the inline
middleware chain when this mux is inline, and inserts into the tree.
Returns the heap, the updated mux and the inserted entry's index. -/
def handle (heap : TreeHeap) (mx : Mux) (method : Nat) (pattern : String)
    (h : HandlerRef) : Except String (TreeHeap × Mux × Nat) :=
  if pattern.data.head? ≠ some '/' then
    .error ("chi: routing pattern must begin with '/' in '" ++ pattern ++ "'")
  else
    let ins := insertRoute (getTree heap mx.tree) method pattern (storedHandler mx h)
    .ok (heap.set mx.tree ins.1, sealMux mx, ins.2)

/-- `Mux.Chain` (mux.go:173-193): builds the receiver's composed handler if
the receiver is not inline and unbuilt, then produces a new inline mux
sharing the tree reference, whose middleware stack is a copy of the
receiver's (only when the receiver is inline) plus the supplied middlewares.
Returns the (possibly updated) receiver and the new inline mux. -/
def Chain (mx : Mux) (middlewares : List Middleware) : Mux × Mux :=
  let mx' := if ¬mx.inline ∧ mx.handler = none then mx.buildRouteHandler else mx
  let mws := (if mx.inline then mx.middlewares else []) ++ middlewares
  (mx', { tree := mx.tree, middlewares := mws, inline := true, handler := none,
          notFoundHandler := none })

/-- The target of `Mount`: its handler identity, the sub-router reference
when the target is itself a `*Mux` (mux.go:255), and in that case, the
sub-router's not-found override (read and possibly set by mux.go:256-258). -/
structure MountTarget where
  h : HandlerRef
  subr : Option Nat
  subrNotFound : Option HandlerRef
  deriving DecidableEq, Repr

/-- Sets the `subrouter` field of the entry at index `idx` (mux.go:279-281). -/
def setSubrouter (t : Tree) (idx : Nat) (sid : Nat) : Tree :=
  match t[idx]? with
  | some e => t.set idx { e with subrouter := some sid }
  | none => t

/-- `Mux.Mount` (mux.go:247-282): conflict check, not-found inheritance for
a sub-router target, the forwarding wrapper, trailing-slash normalization
registering two `ANY|STUB` placeholders, and the final `pattern + "*"`
registration recording the sub-router reference.  Returns the heap, the
updated mux and the (possibly updated) mount target. -/
def Mount (heap : TreeHeap) (mx : Mux) (pattern : String) (target : MountTarget) :
    Except String (TreeHeap × Mux × MountTarget) :=
  let t := getTree heap mx.tree
  if hasPattern t (pattern ++ "*") ∨ hasPattern t (pattern ++ "/*") then
    .error ("chi: attempting to Mount() a handler on an existing path, '" ++ pattern ++ "'")
  else
    let target' :=
      if target.subr.isSome ∧ target.subrNotFound = none ∧ mx.notFoundHandler.isSome then
        { target with subrNotFound := mx.notFoundHandler }
      else target
    let subHandler := HandlerRef.mountForward target.h
    let step1 : Except String (TreeHeap × Mux × String) :=
      if pattern.data.getLast? ≠ some '/' then
        match handle heap mx (ANY ||| STUB) pattern subHandler with
        | .error e => .error e
        | .ok (heap1, mx1, _) =>
            match handle heap1 mx1 (ANY ||| STUB) (pattern ++ "/") mx.notFound with
            | .error e => .error e
            | .ok (heap2, mx2, _) => .ok (heap2, mx2, pattern ++ "/")
      else
        .ok (heap, mx, pattern)
    match step1 with
    | .error e => .error e
    | .ok (heap', mx', pattern') =>
      let method := if target.subr.isSome then ANY ||| STUB else ANY
      match handle heap' mx' method (pattern' ++ "*") subHandler with
      | .error e => .error e
      | .ok (heap'', mx'', idx) =>
        match target.subr with
        | some sid =>
            .ok (heap''.set mx''.tree (setSubrouter (getTree heap'' mx''.tree) idx sid),
                 mx'', target')
        | none => .ok (heap'', mx'', target')

/-- An HTTP request as the mux sees it: the method string, `r.URL.Path`, the
routing context carried by the propagated request scope (`RouteCtxKey` value
in `r.Context()`, mux.go:64) — `none` on an outermost call — and the
identity of `r.Context()` itself, used for the context's back-reference. -/
structure Request where
  method : String
  urlPath : String
  scopeCtx : Option Context
  scopeId : Nat
  deriving DecidableEq, Repr

/-- A handler as dispatch sees it: it may read the request and mutate the
routing context in place (modelled by returning the new context). -/
abbrev Handler := Request → Context → Response × Context

/-- The pool is a stack of contexts; `sync.Pool.Get` takes one or allocates
a fresh one via `NewRouteContext` (mux.go:48-50), `Put` pushes one back. -/
abbrev Pool := List Context

def poolGet (pool : Pool) : Context × Pool :=
  match pool with
  | [] => (NewRouteContext, [])
  | c :: rest => (c, rest)

/-- `Mux.ServeHTTP` (mux.go:57-79), with the composed handler `h` passed in
as the semantics of `mx.handler`: panics when no composed handler exists;
when the request scope already carries a routing context, invokes `h`
directly; otherwise acquires a context from the pool, resets it, links it as
the new outermost scope, invokes `h`, and puts the context back.  Returns
the response and the pool after dispatch. -/
def serveHTTP (mx : Mux) (h : Handler) (pool : Pool) (r : Request) :
    Except String (Response × Pool) :=
  if mx.handler = none then
    .error "chi: attempting to route to a mux with no handlers."
  else
    match r.scopeCtx with
    | some c => .ok ((h r c).1, pool)
    | none =>
        let c1 := { (poolGet pool).1.reset with parent := r.scopeId }
        let r' := { r with scopeCtx := some c1 }
        .ok ((h r' c1).1, (h r' c1).2 :: (poolGet pool).2)

/-- The outcome of `routeHTTP`: a 405 response written by
`methodNotAllowedHandler` (mux.go:382-385), invocation of the effective
not-found handler, or invocation of the matched route handler against the
routing context as the tree lookup left it. -/
inductive Outcome where
  | methodNotAllowed : Outcome
  | notFound : HandlerRef → Outcome
  | invoked : HandlerRef → Context → Outcome
  deriving DecidableEq, Repr

/-- The method→handler mapping returned by a successful tree lookup (§6
`Find`: "mapping from real-method → handler"). -/
abbrev MethodHandlers := List (Nat × HandlerRef)

/-- `hs[method]` on the mapping returned by `FindRoute` (mux.go:370). -/
def lookupMethod (hs : MethodHandlers) (m : Nat) : Option HandlerRef :=
  (hs.find? (fun p => p.1 = m)).map Prod.snd

/-- Modelled from the spec: the type of `tree.FindRoute` (§6 `Find`): given
the routing context and the path, it returns `none` on no match, or the
context updated with captured parameters together with the matched entry's
real-method → handler mapping. -/
abbrev FindRoute := Context → String → Option (Context × MethodHandlers)

/-- The effective routing path (mux.go:351-354): the context's override
`RoutePath` when non-empty, else the request's real URL path. -/
def effectivePath (rctx : Context) (r : Request) : String :=
  if rctx.routePath = "" then r.urlPath else rctx.routePath

/-- `Mux.routeHTTP` (mux.go:346-378), with `tree.FindRoute` abstracted as
`find` (the tree is the external PatternStore): resolve the effective path,
translate the method (405 on failure), query the store (effective not-found
handler on no match), then index the mapping by the method (405 when
absent), else invoke the matched handler. -/
def routeHTTP (mx : Mux) (find : FindRoute) (r : Request) (rctx : Context) : Outcome :=
  let routePath := effectivePath rctx r
  match MethodMap r.method with
  | none => .methodNotAllowed
  | some method =>
    match find rctx routePath with
    | none => .notFound mx.notFound
    | some (rctx', hs) =>
      match lookupMethod hs method with
      | none => .methodNotAllowed
      | some h => .invoked h rctx'

/-- The forwarding wrapper installed by `Mount` (mux.go:261-265): before
delegating to the wrapped handler it sets the routing context's `RoutePath`
to `"/" + rctx.Params.Del("*")`, deleting the reserved wildcard entry. -/
def mountWrapper (rctx : Context) : Context :=
  { rctx with routePath := "/" ++ (paramsDel rctx.params "*").2,
              params := (paramsDel rctx.params "*").1 }

/-- A concrete routing context whose parameters hold a wildcard capture and
one named capture; used by the C10 witness. -/
def wildcardCtx : Context :=
  { params := [("*", "rest"), ("id", "42")], routePath := "", parent := 5 }

/-- A concrete mount target (a sub-router with id 3) for the C4 witness. -/
def mountTargetW : MountTarget :=
  { h := HandlerRef.user 7, subr := some 3, subrNotFound := none }

/-- A concrete plain-handler mount target for the C6 witness. -/
def mountTarget1 : MountTarget :=
  { h := HandlerRef.user 1, subr := none, subrNotFound := none }

/-- The tree heap after mounting `mountTarget1` at `/a` on a fresh router;
computed by the C6 witness through `Mount` itself. -/
def mountedOnceHeap : TreeHeap :=
  [[{ pattern := "/a",
      regs := [(ANY ||| STUB, HandlerRef.mountForward (HandlerRef.user 1))],
      subrouter := none },
    { pattern := "/a/", regs := [(ANY ||| STUB, HandlerRef.defaultNotFound)],
      subrouter := none },
    { pattern := "/a/*",
      regs := [(ANY, HandlerRef.mountForward (HandlerRef.user 1))],
      subrouter := none }]]

/-- The mux value after that first mount (composed handler built). -/
def sealedMuxW : Mux :=
  { tree := 0, middlewares := [], inline := false, handler := some { mws := [] },
    notFoundHandler := none }

/-! ## Helper lemmas -/

theorem slash_append_ne_empty (s : String) : ("/" ++ s) ≠ "" := by
  intro h
  have := congrArg String.data h
  simp [String.data_append] at this

theorem find?_filter_ne_key (ps : List (String × String)) (key : String) :
    (ps.filter (fun p => p.1 ≠ key)).find? (fun p => p.1 = key) = none := by
  rw [List.find?_eq_none]
  intro x hx
  have h2 := (List.mem_filter.mp hx).2
  simp at h2 ⊢
  exact h2

theorem find?_filter_other_key (ps : List (String × String)) (key k : String)
    (hk : k ≠ key) :
    (ps.filter (fun p => p.1 ≠ key)).find? (fun p => p.1 = k) =
      ps.find? (fun p => p.1 = k) := by
  induction ps with
  | nil => rfl
  | cons a tl ih =>
      by_cases ha : a.1 = key
      · have hfil : (a :: tl).filter (fun p => p.1 ≠ key) =
            tl.filter (fun p => p.1 ≠ key) := by
          simp [List.filter_cons, ha]
        have hak : ¬(a.1 = k) := fun h => hk (h.symm.trans ha)
        have hfind : (a :: tl).find? (fun p => p.1 = k) =
            tl.find? (fun p => p.1 = k) :=
          List.find?_cons_of_neg _ (by simpa using hak)
        rw [hfil, hfind, ih]
      · have hfil : (a :: tl).filter (fun p => p.1 ≠ key) =
            a :: tl.filter (fun p => p.1 ≠ key) := by
          simp [List.filter_cons, ha]
        by_cases hk' : a.1 = k
        · rw [hfil, List.find?_cons_of_pos _ (by simpa using hk'),
            List.find?_cons_of_pos _ (by simpa using hk')]
        · rw [hfil, List.find?_cons_of_neg _ (by simpa using hk'),
            List.find?_cons_of_neg _ (by simpa using hk'), ih]

theorem string_eq_of_data_eq (s t : String) (h : s.data = t.data) : s = t := by
  cases s
  cases t
  simp at h
  rw [h]

theorem string_ne_append (s t : String) (ht : t ≠ "") : s ≠ s ++ t := by
  intro h
  have hd := congrArg String.data h
  rw [String.data_append] at hd
  exact ht (string_eq_of_data_eq t "" (List.self_eq_append_right.mp hd))

theorem string_append_right_cancel (s t u : String) (h : s ++ t = s ++ u) : t = u := by
  have hd := congrArg String.data h
  rw [String.data_append, String.data_append] at hd
  exact string_eq_of_data_eq _ _ (List.append_cancel_left hd)

theorem string_head?_append (s t : String) (c : Char) (h : s.data.head? = some c) :
    (s ++ t).data.head? = some c := by
  rw [String.data_append]
  cases hd : s.data with
  | nil => rw [hd] at h; cases h
  | cons a l => rw [hd] at h; simpa using h

theorem sealMux_fields (mx : Mux) :
    (sealMux mx).tree = mx.tree ∧ (sealMux mx).inline = mx.inline ∧
    (sealMux mx).middlewares = mx.middlewares ∧
    (sealMux mx).notFoundHandler = mx.notFoundHandler ∧
    (sealMux mx).handler ≠ none := by
  by_cases h1 : mx.inline <;> by_cases h2 : mx.handler = none <;>
    simp [sealMux, Mux.buildRouteHandler, h1, h2]

theorem storedHandler_of_not_inline (mx : Mux) (h : HandlerRef)
    (hin : mx.inline = false) : storedHandler mx h = h := by
  simp [storedHandler, hin]

theorem handle_eq_ok (heap : TreeHeap) (mx : Mux) (method : Nat) (pattern : String)
    (h : HandlerRef) (hp : pattern.data.head? = some '/') :
    handle heap mx method pattern h =
      .ok (heap.set mx.tree
            (insertRoute (getTree heap mx.tree) method pattern (storedHandler mx h)).1,
           sealMux mx,
           (insertRoute (getTree heap mx.tree) method pattern (storedHandler mx h)).2) := by
  simp [handle, hp]

theorem handle_ok_elim {heap : TreeHeap} {mx : Mux} {method : Nat} {pattern : String}
    {h : HandlerRef} {heap' : TreeHeap} {mx' : Mux} {idx : Nat}
    (hok : handle heap mx method pattern h = .ok (heap', mx', idx)) :
    mx' = sealMux mx ∧
    heap' = heap.set mx.tree
      (insertRoute (getTree heap mx.tree) method pattern (storedHandler mx h)).1 ∧
    pattern.data.head? = some '/' := by
  by_cases hp : pattern.data.head? ≠ some '/'
  · simp [handle, hp] at hok
  · simp [handle, hp] at hok
    exact ⟨hok.2.1.symm, hok.1.symm, not_not.mp hp⟩

theorem hasPattern_iff_findEntry (t : Tree) (q : String) :
    hasPattern t q = false ↔ findEntry t q = none := by
  rw [hasPattern, findEntry, List.any_eq_false, List.find?_eq_none]

theorem hasPattern_eq_isSome_findEntry (t : Tree) (q : String) :
    hasPattern t q = (findEntry t q).isSome := by
  cases hfe : findEntry t q with
  | none => rw [(hasPattern_iff_findEntry t q).mpr hfe]; rfl
  | some e =>
      cases hhp : hasPattern t q with
      | false => rw [(hasPattern_iff_findEntry t q).mp hhp] at hfe; cases hfe
      | true => rfl

theorem findIdx?_eq_none_of_hasPattern_false {t : Tree} {q : String}
    (hq : hasPattern t q = false) :
    t.findIdx? (fun e => e.pattern = q) = none := by
  rw [List.findIdx?_eq_none_iff]
  intro x hx
  exact Bool.eq_false_iff.mpr (List.any_eq_false.mp hq x hx)

theorem insertRoute_fresh {t : Tree} {q : String} (m : Nat) (h : HandlerRef)
    (hq : hasPattern t q = false) :
    insertRoute t m q h =
      (t ++ [{ pattern := q, regs := [(m, h)], subrouter := none }], t.length) := by
  simp [insertRoute, findIdx?_eq_none_of_hasPattern_false hq]

theorem findEntry_map_preserve (t : Tree) (f : RouteEntry → RouteEntry)
    (hf : ∀ e, (f e).pattern = e.pattern) (q : String) :
    findEntry (t.map f) q = (findEntry t q).map f := by
  induction t with
  | nil => rfl
  | cons a tl ih =>
      simp only [findEntry, List.map_cons]
      by_cases ha : a.pattern = q
      · rw [List.find?_cons_of_pos _ (by simp [hf, ha]),
          List.find?_cons_of_pos _ (by simp [ha])]
        rfl
      · rw [List.find?_cons_of_neg _ (by simp [hf, ha]),
          List.find?_cons_of_neg _ (by simp [ha])]
        exact ih

theorem findEntry_insertRoute_of_ne {p q : String} (t : Tree) (m : Nat) (h : HandlerRef)
    (hne : p ≠ q) :
    findEntry (insertRoute t m q h).1 p = findEntry t p := by
  rcases hidx : t.findIdx? (fun e => e.pattern = q) with _ | i
  · simp only [insertRoute, hidx]
    rw [findEntry, List.find?_append]
    have hqp : ¬(q = p) := fun hh => hne hh.symm
    have hone : List.find? (fun e => e.pattern = p)
        ([{ pattern := q, regs := [(m, h)], subrouter := none }] : Tree) = none := by
      simp [List.find?, hqp]
    rw [hone]
    simp [findEntry]
  · simp only [insertRoute, hidx]
    rw [findEntry_map_preserve _ _ (fun e => by by_cases he : e.pattern = q <;> simp [he])]
    rcases hfe : findEntry t p with _ | e
    · rfl
    · have hep : e.pattern = p := by simpa using List.find?_some hfe
      have : ¬(e.pattern = q) := by rw [hep]; exact hne
      simp [this]

theorem findEntry_insertRoute_self (t : Tree) (m : Nat) (q : String) (h : HandlerRef) :
    ∃ e, findEntry (insertRoute t m q h).1 q = some e ∧ (m, h) ∈ e.regs := by
  rcases hidx : t.findIdx? (fun e => e.pattern = q) with _ | i
  · refine ⟨{ pattern := q, regs := [(m, h)], subrouter := none }, ?_, by simp⟩
    have hnone : findEntry t q = none := by
      rw [findEntry, List.find?_eq_none]
      intro x hx
      simpa using List.findIdx?_eq_none_iff.mp hidx x hx
    simp only [insertRoute, hidx]
    rw [findEntry, List.find?_append]
    rw [show List.find? (fun e => e.pattern = q) t = none from hnone]
    simp [List.find?]
  · have hsome : ∃ x ∈ t, x.pattern = q := by
      by_contra hno
      push_neg at hno
      have : t.findIdx? (fun e => e.pattern = q) = none :=
        List.findIdx?_eq_none_iff.mpr (fun x hx => by simpa using hno x hx)
      rw [this] at hidx
      cases hidx
    obtain ⟨x, hx, hxq⟩ := hsome
    have hfs : (t.find? (fun e => e.pattern = q)).isSome :=
      List.find?_isSome.mpr ⟨x, hx, by simpa using hxq⟩
    obtain ⟨e0, he0⟩ := Option.isSome_iff_exists.mp hfs
    have he0q : e0.pattern = q := by simpa using List.find?_some he0
    refine ⟨{ e0 with regs := e0.regs ++ [(m, h)] }, ?_, by simp⟩
    simp only [insertRoute, hidx]
    rw [findEntry_map_preserve _ _ (fun e => by by_cases he : e.pattern = q <;> simp [he])]
    rw [findEntry, he0]
    simp [he0q]

theorem hasPattern_insertRoute_self (t : Tree) (m : Nat) (q : String) (h : HandlerRef) :
    hasPattern (insertRoute t m q h).1 q = true := by
  obtain ⟨e, he, -⟩ := findEntry_insertRoute_self t m q h
  rw [hasPattern_eq_isSome_findEntry, he]
  rfl

theorem hasPattern_insertRoute_of_ne {p q : String} (t : Tree) (m : Nat) (h : HandlerRef)
    (hne : p ≠ q) :
    hasPattern (insertRoute t m q h).1 p = hasPattern t p := by
  rw [hasPattern_eq_isSome_findEntry, hasPattern_eq_isSome_findEntry,
    findEntry_insertRoute_of_ne t m h hne]

theorem set_concat (t : List α) (a b : α) : (t ++ [a]).set t.length b = t ++ [b] := by
  induction t with
  | nil => rfl
  | cons x tl ih => simp [ih]

theorem setSubrouter_concat (t : Tree) (e : RouteEntry) (sid : Nat) :
    setSubrouter (t ++ [e]) t.length sid = t ++ [{ e with subrouter := some sid }] := by
  simp only [setSubrouter]
  rw [show (t ++ [e])[t.length]? = some e by simp]
  exact set_concat t e _

theorem hasPattern_set_preserve (t : Tree) (i : Nat) (e b : RouteEntry)
    (hg : t[i]? = some e) (hb : b.pattern = e.pattern) (q : String) :
    hasPattern (t.set i b) q = hasPattern t q := by
  induction t generalizing i with
  | nil => simp at hg
  | cons a tl ih =>
      cases i with
      | zero =>
          simp at hg
          simp [List.set, hasPattern, hb, hg]
      | succ n =>
          simp at hg
          simp only [List.set, hasPattern, List.any_cons]
          rw [show (tl.set n b).any (fun x => x.pattern = q) = tl.any (fun x => x.pattern = q)
            from ih n hg]

theorem hasPattern_setSubrouter (t : Tree) (i sid : Nat) (q : String) :
    hasPattern (setSubrouter t i sid) q = hasPattern t q := by
  simp only [setSubrouter]
  cases hg : t[i]? with
  | none => rfl
  | some e =>
      exact hasPattern_set_preserve t i e { e with subrouter := some sid } hg rfl q

theorem getTree_set_self (heap : TreeHeap) (i : Nat) (t : Tree) (hvalid : i < heap.length) :
    getTree (heap.set i t) i = t := by
  simp [getTree, List.getD, List.getElem?_set_self', hvalid]

theorem findEntry_append_left {t : Tree} {q : String} {e : RouteEntry} (l : Tree)
    (h : findEntry t q = some e) : findEntry (t ++ l) q = some e := by
  rw [findEntry, List.find?_append, show List.find? (fun x => x.pattern = q) t = some e from h]
  rfl

theorem findEntry_append_right_none {t : Tree} {q : String} (l : Tree)
    (h : findEntry t q = none) : findEntry (t ++ l) q = findEntry l q := by
  rw [findEntry, List.find?_append, show List.find? (fun x => x.pattern = q) t = none from h]
  rfl

theorem findEntry_append_right_ne {t : Tree} {q : String} (e : RouteEntry)
    (h : ¬(e.pattern = q)) : findEntry (t ++ [e]) q = findEntry t q := by
  rw [findEntry, List.find?_append]
  have h1 : List.find? (fun x => x.pattern = q) [e] = none := by simp [List.find?, h]
  rw [h1]
  simp [findEntry]

theorem sealMux_idem (mx : Mux) : sealMux (sealMux mx) = sealMux mx := by
  by_cases h1 : mx.inline <;> by_cases h2 : mx.handler = none <;>
    simp [sealMux, Mux.buildRouteHandler, h1, h2]

theorem storedHandler_sealMux (mx : Mux) (h : HandlerRef) :
    storedHandler (sealMux mx) h = storedHandler mx h := by
  obtain ⟨-, hin, hmw, -, -⟩ := sealMux_fields mx
  simp [storedHandler, hin, hmw]

theorem mount_ok_core (heap : TreeHeap) (mx : Mux) (pattern : String)
    (target : MountTarget)
    (hroot : pattern.data.head? = some '/')
    (hslash : pattern.data.getLast? ≠ some '/')
    (hvalid : mx.tree < heap.length)
    (hc1 : hasPattern (getTree heap mx.tree) (pattern ++ "*") = false)
    (hc2 : hasPattern (getTree heap mx.tree) (pattern ++ "/*") = false) :
    ∃ tgt', Mount heap mx pattern target =
      .ok (heap.set mx.tree
            ((insertRoute
                (insertRoute (getTree heap mx.tree) (ANY ||| STUB) pattern
                  (storedHandler mx (.mountForward target.h))).1
                (ANY ||| STUB) (pattern ++ "/") (storedHandler mx mx.notFound)).1 ++
              [{ pattern := pattern ++ "/*",
                 regs := [(if target.subr.isSome then ANY ||| STUB else ANY,
                           storedHandler mx (.mountForward target.h))],
                 subrouter := target.subr }]),
           sealMux mx, tgt') := by
  obtain ⟨htr, hin, hmw, hnfh, -⟩ := sealMux_fields mx
  have hsa : (pattern ++ "/") ++ "*" = pattern ++ "/*" := by
    rw [String.append_assoc, (by decide : ("/" : String) ++ "*" = "/*")]
  have hne_b : pattern ++ "/*" ≠ pattern :=
    fun hh => string_ne_append pattern "/*" (by decide) hh.symm
  have hne_c : pattern ++ "/*" ≠ pattern ++ "/" := by
    intro hh
    have := string_append_right_cancel _ _ _ hh
    exact absurd this (by decide)
  have hroot2 : (pattern ++ "/").data.head? = some '/' :=
    string_head?_append _ _ _ hroot
  have hroot3 : ((pattern ++ "/") ++ "*").data.head? = some '/' :=
    string_head?_append _ _ _ hroot2
  have hconf : ¬(hasPattern (getTree heap mx.tree) (pattern ++ "*") = true ∨
      hasPattern (getTree heap mx.tree) (pattern ++ "/*") = true) := by
    simp [hc1, hc2]
  have h1 := handle_eq_ok heap mx (ANY ||| STUB) pattern
    (.mountForward target.h) hroot
  have hlen1 : mx.tree < (heap.set mx.tree
      (insertRoute (getTree heap mx.tree) (ANY ||| STUB) pattern
        (storedHandler mx (.mountForward target.h))).1).length := by
    simpa using hvalid
  have hT1 := getTree_set_self heap mx.tree
    (insertRoute (getTree heap mx.tree) (ANY ||| STUB) pattern
      (storedHandler mx (.mountForward target.h))).1 hvalid
  have h2 := handle_eq_ok (heap.set mx.tree
      (insertRoute (getTree heap mx.tree) (ANY ||| STUB) pattern
        (storedHandler mx (.mountForward target.h))).1)
    (sealMux mx) (ANY ||| STUB) (pattern ++ "/") mx.notFound hroot2
  rw [htr, hT1, storedHandler_sealMux, sealMux_idem, List.set_set] at h2
  have hp1 : hasPattern (insertRoute (getTree heap mx.tree) (ANY ||| STUB) pattern
      (storedHandler mx (.mountForward target.h))).1 (pattern ++ "/*") = false := by
    rw [hasPattern_insertRoute_of_ne _ _ _ hne_b]
    exact hc2
  have hp2 : hasPattern (insertRoute
      (insertRoute (getTree heap mx.tree) (ANY ||| STUB) pattern
        (storedHandler mx (.mountForward target.h))).1
      (ANY ||| STUB) (pattern ++ "/") (storedHandler mx mx.notFound)).1
      (pattern ++ "/*") = false := by
    rw [hasPattern_insertRoute_of_ne _ _ _ hne_c]
    exact hp1
  have hlen2 : mx.tree < (heap.set mx.tree
      (insertRoute
        (insertRoute (getTree heap mx.tree) (ANY ||| STUB) pattern
          (storedHandler mx (.mountForward target.h))).1
        (ANY ||| STUB) (pattern ++ "/") (storedHandler mx mx.notFound)).1).length := by
    simpa using hvalid
  have hT2 := getTree_set_self heap mx.tree
    (insertRoute
      (insertRoute (getTree heap mx.tree) (ANY ||| STUB) pattern
        (storedHandler mx (.mountForward target.h))).1
      (ANY ||| STUB) (pattern ++ "/") (storedHandler mx mx.notFound)).1 hvalid
  have h3 := handle_eq_ok (heap.set mx.tree
      (insertRoute
        (insertRoute (getTree heap mx.tree) (ANY ||| STUB) pattern
          (storedHandler mx (.mountForward target.h))).1
        (ANY ||| STUB) (pattern ++ "/") (storedHandler mx mx.notFound)).1)
    (sealMux mx) (if target.subr.isSome then ANY ||| STUB else ANY)
    ((pattern ++ "/") ++ "*") (.mountForward target.h) hroot3
  rw [htr, hT2, storedHandler_sealMux, sealMux_idem, List.set_set, hsa,
    insertRoute_fresh _ _ hp2] at h3
  refine ⟨(if target.subr.isSome ∧ target.subrNotFound = none ∧ mx.notFoundHandler.isSome
      then { target with subrNotFound := mx.notFoundHandler } else target), ?_⟩
  rcases htgt : target.subr with _ | sid
  · simp [htgt] at h3
    simp [Mount, hc1, hc2, hslash, h1, h2, hsa, h3, htgt]
  · simp [htgt] at h3
    have hT3 := getTree_set_self heap mx.tree
      ((insertRoute
          (insertRoute (getTree heap mx.tree) (ANY ||| STUB) pattern
            (storedHandler mx (.mountForward target.h))).1
          (ANY ||| STUB) (pattern ++ "/") (storedHandler mx mx.notFound)).1 ++
        [{ pattern := pattern ++ "/*",
           regs := [(ANY ||| STUB, storedHandler mx (.mountForward target.h))],
           subrouter := none }]) hvalid
    simp [Mount, hc1, hc2, hslash, h1, h2, hsa, h3, htgt, htr, hT3, setSubrouter_concat,
      List.set_set]

/-! ## Claim theorems -/

/-- C1: `routeHTTP` resolves the outcome in order: an unrecognized method
string yields 405 without the pattern store being queried (the outcome does
not depend on the `find` function at all); otherwise a failed store lookup
invokes the effective not-found handler (the `NotFound` override when set,
else the default 404 responder); otherwise a method absent from the matched
mapping yields 405, never the not-found outcome; otherwise the matched
handler is invoked. -/
theorem routeHTTP_dispatch_order (mx : Mux) (find find' : FindRoute) (r : Request)
    (rctx : Context) :
    (MethodMap r.method = none →
        routeHTTP mx find r rctx = .methodNotAllowed ∧
        routeHTTP mx find r rctx = routeHTTP mx find' r rctx) ∧
    (∀ m, MethodMap r.method = some m →
      (find rctx (effectivePath rctx r) = none →
          routeHTTP mx find r rctx = .notFound mx.notFound ∧
          (∀ h0, mx.notFoundHandler = some h0 → mx.notFound = h0) ∧
          (mx.notFoundHandler = none → mx.notFound = .defaultNotFound)) ∧
      (∀ rctx' hs, find rctx (effectivePath rctx r) = some (rctx', hs) →
        (lookupMethod hs m = none →
            routeHTTP mx find r rctx = .methodNotAllowed ∧
            ∀ h0, routeHTTP mx find r rctx ≠ .notFound h0) ∧
        (∀ h, lookupMethod hs m = some h →
            routeHTTP mx find r rctx = .invoked h rctx'))) := by
  refine ⟨fun hm => ⟨by simp [routeHTTP, hm], by simp [routeHTTP, hm]⟩, fun m hm => ⟨?_, ?_⟩⟩
  · intro hf
    refine ⟨by simp [routeHTTP, hm, hf], fun h0 hh => ?_, fun hh => ?_⟩ <;>
      simp [Mux.notFound, hh]
  · intro rctx' hs hf
    refine ⟨fun hl => ⟨by simp [routeHTTP, hm, hf, hl], fun h0 => ?_⟩, fun h hl => ?_⟩
    · simp [routeHTTP, hm, hf, hl]
    · simp [routeHTTP, hm, hf, hl]

/-- Witness for C1 at a concrete router, store and request. -/
theorem routeHTTP_dispatch_order_witness :
    routeHTTP (newMux 0)
      (fun c p => if p = "/a" then some (c, [(mGET, HandlerRef.user 1)]) else none)
      { method := "GET", urlPath := "/a", scopeCtx := none, scopeId := 0 }
      NewRouteContext = .invoked (.user 1) NewRouteContext := by
  have h := routeHTTP_dispatch_order (newMux 0)
      (fun c p => if p = "/a" then some (c, [(mGET, HandlerRef.user 1)]) else none)
      (fun _ _ => none)
      { method := "GET", urlPath := "/a", scopeCtx := none, scopeId := 0 }
      NewRouteContext
  exact ((h.2 mGET (by decide)).2 NewRouteContext [(mGET, HandlerRef.user 1)]
      (by decide)).2 (HandlerRef.user 1) (by decide)

/-- C2: when the propagated request scope already carries a routing context,
`serveHTTP` invokes the composed handler directly against it and the pool is
untouched; only an outermost call (no scope context) acquires a context from
the pool, resets it, links it as the new outermost scope, and invokes the
composed handler against it. -/
theorem serveHTTP_nested_reuses_context (mx : Mux) (h : Handler) (pool : Pool)
    (r : Request) (hbuilt : mx.handler ≠ none) :
    (∀ c, r.scopeCtx = some c → serveHTTP mx h pool r = .ok ((h r c).1, pool)) ∧
    (r.scopeCtx = none →
      serveHTTP mx h pool r =
        .ok ((h { r with scopeCtx := some { (poolGet pool).1.reset with parent := r.scopeId } }
                 { (poolGet pool).1.reset with parent := r.scopeId }).1,
             (h { r with scopeCtx := some { (poolGet pool).1.reset with parent := r.scopeId } }
                 { (poolGet pool).1.reset with parent := r.scopeId }).2 ::
               (poolGet pool).2)) := by
  refine ⟨fun c hc => ?_, fun hc => ?_⟩ <;> simp [serveHTTP, hbuilt, hc]

/-- Witness for C2: a nested call with a concrete scope context leaves the
pool alone, and an outermost call goes through the pool. -/
theorem serveHTTP_nested_reuses_context_witness :
    serveHTTP ((newMux 0).buildRouteHandler) (fun _ c => (7, c))
      [{ params := [], routePath := "", parent := 9 }]
      { method := "GET", urlPath := "/x",
        scopeCtx := some { params := [("id", "42")], routePath := "/y", parent := 3 },
        scopeId := 3 } =
      .ok (7, [{ params := [], routePath := "", parent := 9 }]) :=
  (serveHTTP_nested_reuses_context ((newMux 0).buildRouteHandler) (fun _ c => (7, c))
      [{ params := [], routePath := "", parent := 9 }]
      { method := "GET", urlPath := "/x",
        scopeCtx := some { params := [("id", "42")], routePath := "/y", parent := 3 },
        scopeId := 3 } (by decide)).1
    { params := [("id", "42")], routePath := "/y", parent := 3 } rfl

/-- C3: on every outermost dispatch the context acquired from the pool is
released back onto the remaining pool, for *every* composed handler `h` —
release is independent of the handler's outcome. -/
theorem serveHTTP_releases_context (mx : Mux) (h : Handler) (pool : Pool)
    (r : Request) (hbuilt : mx.handler ≠ none) (houter : r.scopeCtx = none) :
    ∃ resp rctx, serveHTTP mx h pool r = .ok (resp, rctx :: (poolGet pool).2) := by
  refine ⟨(h { r with scopeCtx := some { (poolGet pool).1.reset with parent := r.scopeId } }
      { (poolGet pool).1.reset with parent := r.scopeId }).1,
    (h { r with scopeCtx := some { (poolGet pool).1.reset with parent := r.scopeId } }
      { (poolGet pool).1.reset with parent := r.scopeId }).2, ?_⟩
  simp [serveHTTP, hbuilt, houter]

/-- Witness for C3: a handler that reports an error response (500) still has
its context released back to the pool. -/
theorem serveHTTP_releases_context_witness :
    ∃ resp rctx,
      serveHTTP ((newMux 0).buildRouteHandler) (fun _ c => (500, c)) []
        { method := "GET", urlPath := "/x", scopeCtx := none, scopeId := 0 } =
        .ok (resp, rctx :: (poolGet []).2) :=
  serveHTTP_releases_context ((newMux 0).buildRouteHandler) (fun _ c => (500, c)) []
    { method := "GET", urlPath := "/x", scopeCtx := none, scopeId := 0 }
    (by decide) rfl

/-- C5: the mount forwarding wrapper sets the context's override path to
`"/"` concatenated with the captured wildcard remainder; the effective path
of the nested dispatch is then exactly this override path, and the outcome
of `routeHTTP` no longer depends on the request's real URL path. -/
theorem mount_wrapper_overrides_path (mx : Mux) (find : FindRoute) (rctx : Context)
    (r : Request) :
    (mountWrapper rctx).routePath = "/" ++ (paramsDel rctx.params "*").2 ∧
    effectivePath (mountWrapper rctx) r = "/" ++ (paramsDel rctx.params "*").2 ∧
    (∀ p', routeHTTP mx find r (mountWrapper rctx) =
        routeHTTP mx find { r with urlPath := p' } (mountWrapper rctx)) := by
  have hne : (mountWrapper rctx).routePath ≠ "" := by
    show ("/" ++ (paramsDel rctx.params "*").2) ≠ ""
    exact slash_append_ne_empty _
  refine ⟨rfl, ?_, fun p' => ?_⟩
  · simp only [effectivePath, hne, if_neg]
    rfl
  · simp [routeHTTP, effectivePath, hne]

/-- C10: the mount forwarding wrapper deletes the reserved `"*"` wildcard
entry from the parameter mapping as it sets the override path, leaves every
other parameter binding unchanged, and modifies no context field besides
`routePath` and that one parameter entry (the parent back-reference is
untouched). -/
theorem mount_wrapper_frame (rctx : Context) :
    (mountWrapper rctx).parent = rctx.parent ∧
    (mountWrapper rctx).routePath = "/" ++ (paramsDel rctx.params "*").2 ∧
    paramsGet (mountWrapper rctx).params "*" = none ∧
    (∀ k, k ≠ "*" → paramsGet (mountWrapper rctx).params k = paramsGet rctx.params k) := by
  refine ⟨rfl, rfl, ?_, fun k hk => ?_⟩
  · simp only [mountWrapper, paramsGet, paramsDel]
    rw [find?_filter_ne_key]
    rfl
  · simp only [mountWrapper, paramsGet, paramsDel]
    rw [find?_filter_other_key _ _ _ hk]

/-- Witness for C10 at a concrete context and parameter key. -/
theorem mount_wrapper_frame_witness :
    (mountWrapper wildcardCtx).parent = 5 ∧
    paramsGet (mountWrapper wildcardCtx).params "*" = none ∧
    paramsGet (mountWrapper wildcardCtx).params "id" = some "42" := by
  have h := mount_wrapper_frame wildcardCtx
  refine ⟨h.1, h.2.2.1, ?_⟩
  rw [h.2.2.2 "id" (by decide)]
  decide

/-- C7: `Use` appends to the middleware sequence exactly when the composed
handler has not been built and fails with the configuration error exactly
when it has; every successful `handle` call — on any router, inline
included — leaves the composed handler built, and a successful dispatch
implies it was already built. -/
theorem use_fails_after_seal (mx : Mux) (mws : List Middleware) :
    (mx.handler = none →
        Use mx mws = .ok { mx with middlewares := mx.middlewares ++ mws }) ∧
    (mx.handler ≠ none →
        Use mx mws = .error "chi: all middlewares must be defined before routes on a mux") ∧
    (∀ heap method pattern h heap' mx' idx,
        handle heap mx method pattern h = .ok (heap', mx', idx) → mx'.handler ≠ none) ∧
    (∀ h pool r out, serveHTTP mx h pool r = .ok out → mx.handler ≠ none) := by
  refine ⟨fun hn => by simp [Use, hn], fun hs => ?_, ?_, ?_⟩
  · have : mx.handler.isSome := Option.isSome_iff_ne_none.mpr hs
    simp [Use, this]
  · intro heap method pattern h heap' mx' idx hok
    rw [(handle_ok_elim hok).1]
    exact (sealMux_fields mx).2.2.2.2
  · intro h pool r out hok hb
    have herr : serveHTTP mx h pool r =
        .error "chi: attempting to route to a mux with no handlers." := by
      simp [serveHTTP, hb]
    rw [herr] at hok
    exact Except.noConfusion hok

/-- Witness for C7: appending works on a fresh router; a concrete route
registration leaves the composed handler built; and the sealed router
rejects further middleware. -/
theorem use_fails_after_seal_witness :
    Use (newMux 0) [1] = .ok { newMux 0 with middlewares := [1] } ∧
    ((newMux 0).buildRouteHandler).handler ≠ none ∧
    Use ((newMux 0).buildRouteHandler) [2] =
      .error "chi: all middlewares must be defined before routes on a mux" := by
  refine ⟨(use_fails_after_seal (newMux 0) [1]).1 rfl, ?_, ?_⟩
  · exact (use_fails_after_seal (newMux 0) [9]).2.2.1 [[]] mGET "/a" (.user 0)
      [[{ pattern := "/a", regs := [(mGET, .user 0)], subrouter := none }]]
      ((newMux 0).buildRouteHandler) 0 (by rfl)
  · exact (use_fails_after_seal ((newMux 0).buildRouteHandler) [2]).2.1 (by decide)

/-- C8 counterexample: a router built by `NewMux` followed by a bare `Chain`
call has a composed handler but *zero* routes ever registered (its tree is
empty), yet `ServeHTTP` dispatches without the configuration error —
refuting "fails iff no route has ever been registered". -/
theorem serveHTTP_zero_routes_counterexample :
    getTree [[]] ((Chain (newMux 0) []).1).tree = [] ∧
    serveHTTP ((Chain (newMux 0) []).1) (fun _ c => (404, c)) []
      { method := "GET", urlPath := "/x", scopeCtx := none, scopeId := 0 } =
      .ok (404, [{ params := [], routePath := "", parent := 0 }]) := by
  constructor
  · rfl
  · rfl

/-- C8 amended: `ServeHTTP` fails with the fatal configuration error exactly
when no composed handler exists (`mx.handler == nil`); since `Chain`/`Group`
also build the composed handler, "no route ever registered" is not
equivalent to it. -/
theorem serveHTTP_fails_iff_unbuilt (mx : Mux) (h : Handler) (pool : Pool)
    (r : Request) :
    (∃ e, serveHTTP mx h pool r = .error e) ↔ mx.handler = none := by
  constructor
  · rintro ⟨e, he⟩
    by_contra hb
    cases hc : r.scopeCtx <;> simp [serveHTTP, hb, hc] at he
  · intro hb
    exact ⟨"chi: attempting to route to a mux with no handlers.", by simp [serveHTTP, hb]⟩

/-- C9: `Chain` returns a new inline router holding the same pattern-store
reference as the receiver, whose middleware sequence is a copy of the
receiver's (only when the receiver is itself inline, else empty) followed by
the supplied middlewares; when the receiver is non-inline with an unbuilt
composed handler, `Chain` builds the receiver's handler as a side effect, so
later `Use` calls on the receiver fail; otherwise the receiver is
unchanged. -/
theorem chain_builds_inline_router (mx : Mux) (mws : List Middleware) :
    (Chain mx mws).2.tree = mx.tree ∧
    (Chain mx mws).2.inline = true ∧
    (Chain mx mws).2.middlewares = (if mx.inline then mx.middlewares else []) ++ mws ∧
    (mx.inline = false → mx.handler = none →
        (Chain mx mws).1 = { mx with handler := some { mws := mx.middlewares } } ∧
        ∀ ms, Use (Chain mx mws).1 ms =
          .error "chi: all middlewares must be defined before routes on a mux") ∧
    (mx.inline = true ∨ mx.handler ≠ none → (Chain mx mws).1 = mx) := by
  refine ⟨rfl, rfl, rfl, fun hin hb => ?_, fun hor => ?_⟩
  · have h1 : (Chain mx mws).1 = { mx with handler := some { mws := mx.middlewares } } := by
      simp [Chain, hin, hb, Mux.buildRouteHandler]
    exact ⟨h1, fun ms => by simp [Use, h1]⟩
  · rcases hor with hin | hb
    · simp [Chain, hin]
    · simp [Chain, hb]

/-- Witness for C9 at a fresh non-inline router. -/
theorem chain_builds_inline_router_witness :
    (Chain (newMux 0) [3]).2.middlewares = [3] ∧
    (Chain (newMux 0) [3]).1 = { newMux 0 with handler := some { mws := [] } } ∧
    Use (Chain (newMux 0) [3]).1 [4] =
      .error "chi: all middlewares must be defined before routes on a mux" := by
  have h := chain_builds_inline_router (newMux 0) [3]
  have h4 := h.2.2.2.1 rfl rfl
  exact ⟨h.2.2.1, h4.1, h4.2 [4]⟩

/-- C4 amended: a `Mount` with a '/'-rooted pattern not ending in '/', a
valid tree reference and no pre-existing conflicting pattern registers
exactly three entries — the bare pattern as `ANY|STUB`, `pattern + "/"` as
`ANY|STUB`, and `pattern + "/*"` as `ANY`, or `ANY|STUB` exactly when the
target is a router, in which case the stored entry records the sub-router
reference — mapped to the forwarding wrapper (first and third) and the
not-found handler (second) as `handle` stores them: wrapped in the
receiver's inline middleware chain when the receiver is an inline router
with middleware (`storedHandler`, mux.go:331-338), and bare otherwise.
Every other pattern's entry is untouched. -/
theorem mount_registers_three_entries
    (heap : TreeHeap) (mx : Mux) (pattern : String) (target : MountTarget)
    (hroot : pattern.data.head? = some '/')
    (hslash : pattern.data.getLast? ≠ some '/')
    (hvalid : mx.tree < heap.length)
    (hc1 : hasPattern (getTree heap mx.tree) (pattern ++ "*") = false)
    (hc2 : hasPattern (getTree heap mx.tree) (pattern ++ "/*") = false) :
    ∃ heap' mx' tgt',
      Mount heap mx pattern target = .ok (heap', mx', tgt') ∧
      (∃ e, findEntry (getTree heap' mx'.tree) pattern = some e ∧
          (ANY ||| STUB, storedHandler mx (HandlerRef.mountForward target.h)) ∈ e.regs) ∧
      (∃ e, findEntry (getTree heap' mx'.tree) (pattern ++ "/") = some e ∧
          (ANY ||| STUB, storedHandler mx mx.notFound) ∈ e.regs) ∧
      findEntry (getTree heap' mx'.tree) (pattern ++ "/*") =
        some { pattern := pattern ++ "/*",
               regs := [(if target.subr.isSome then ANY ||| STUB else ANY,
                         storedHandler mx (HandlerRef.mountForward target.h))],
               subrouter := target.subr } ∧
      (∀ q, q ≠ pattern → q ≠ pattern ++ "/" → q ≠ pattern ++ "/*" →
          findEntry (getTree heap' mx'.tree) q = findEntry (getTree heap mx.tree) q) := by
  have hne_a : pattern ≠ pattern ++ "/" := string_ne_append pattern "/" (by decide)
  have hne_b : pattern ++ "/*" ≠ pattern :=
    fun hh => string_ne_append pattern "/*" (by decide) hh.symm
  have hne_c : pattern ++ "/*" ≠ pattern ++ "/" := by
    intro hh
    have := string_append_right_cancel _ _ _ hh
    exact absurd this (by decide)
  obtain ⟨tgt', hmeq⟩ := mount_ok_core heap mx pattern target hroot hslash hvalid hc1 hc2
  have hp1 : hasPattern (insertRoute (getTree heap mx.tree) (ANY ||| STUB) pattern
      (storedHandler mx (HandlerRef.mountForward target.h))).1 (pattern ++ "/*") = false := by
    rw [hasPattern_insertRoute_of_ne _ _ _ hne_b]
    exact hc2
  have hp2 : hasPattern (insertRoute
      (insertRoute (getTree heap mx.tree) (ANY ||| STUB) pattern
        (storedHandler mx (HandlerRef.mountForward target.h))).1
      (ANY ||| STUB) (pattern ++ "/") (storedHandler mx mx.notFound)).1
      (pattern ++ "/*") = false := by
    rw [hasPattern_insertRoute_of_ne _ _ _ hne_c]
    exact hp1
  refine ⟨_, _, tgt', hmeq, ?_, ?_, ?_, ?_⟩
  · rw [(sealMux_fields mx).1, getTree_set_self _ _ _ hvalid]
    obtain ⟨e, he, hm⟩ := findEntry_insertRoute_self (getTree heap mx.tree)
      (ANY ||| STUB) pattern (storedHandler mx (HandlerRef.mountForward target.h))
    refine ⟨e, ?_, hm⟩
    apply findEntry_append_left
    rw [findEntry_insertRoute_of_ne _ _ _ hne_a]
    exact he
  · rw [(sealMux_fields mx).1, getTree_set_self _ _ _ hvalid]
    obtain ⟨e, he, hm⟩ := findEntry_insertRoute_self
      (insertRoute (getTree heap mx.tree) (ANY ||| STUB) pattern
        (storedHandler mx (HandlerRef.mountForward target.h))).1
      (ANY ||| STUB) (pattern ++ "/") (storedHandler mx mx.notFound)
    exact ⟨e, findEntry_append_left _ he, hm⟩
  · rw [(sealMux_fields mx).1, getTree_set_self _ _ _ hvalid]
    rw [findEntry_append_right_none _ ((hasPattern_iff_findEntry _ _).mp hp2)]
    simp [findEntry, List.find?]
  · intro q hq1 hq2 hq3
    have hq3' : ¬(pattern ++ "/*" = q) := fun hh => hq3 hh.symm
    rw [(sealMux_fields mx).1, getTree_set_self _ _ _ hvalid]
    rw [findEntry_append_right_ne _ hq3']
    rw [findEntry_insertRoute_of_ne _ _ _ hq2, findEntry_insertRoute_of_ne _ _ _ hq1]

/-- Witness for C4: mounting a sub-router at `/admin` on a fresh
(non-inline) router, where the stored handler is the bare forwarding
wrapper. -/
theorem mount_registers_three_entries_witness :
    ∃ heap' mx' tgt',
      Mount [[]] (newMux 0) "/admin" mountTargetW = .ok (heap', mx', tgt') ∧
      (∃ e, findEntry (getTree heap' mx'.tree) "/admin" = some e ∧
          (ANY ||| STUB,
            storedHandler (newMux 0) (HandlerRef.mountForward mountTargetW.h)) ∈ e.regs) ∧
      (∃ e, findEntry (getTree heap' mx'.tree) ("/admin" ++ "/") = some e ∧
          (ANY ||| STUB, storedHandler (newMux 0) (newMux 0).notFound) ∈ e.regs) ∧
      findEntry (getTree heap' mx'.tree) ("/admin" ++ "/*") =
        some { pattern := "/admin" ++ "/*",
               regs := [(if mountTargetW.subr.isSome then ANY ||| STUB else ANY,
                         storedHandler (newMux 0) (HandlerRef.mountForward mountTargetW.h))],
               subrouter := mountTargetW.subr } ∧
      (∀ q, q ≠ "/admin" → q ≠ "/admin" ++ "/" → q ≠ "/admin" ++ "/*" →
          findEntry (getTree heap' mx'.tree) q =
            findEntry (getTree [[]] (newMux 0).tree) q) :=
  mount_registers_three_entries [[]] (newMux 0) "/admin" mountTargetW (by decide)
    (by decide) (by decide) (by decide) (by decide)

/-- C4 counterexample: on an *inline* receiver — as routinely produced by
`Chain`/`Group` — `Mount` stores the inline-middleware-chained wrap of the
forwarding wrapper (and of the not-found handler), not the forwarding
wrapper itself (mux.go:333-335), so the original claim's "mapped to the
forwarding wrapper" fails there. -/
theorem mount_on_inline_counterexample :
    (Chain (newMux 0) [5]).2.inline = true ∧
    Mount [[]] ((Chain (newMux 0) [5]).2) "/a" mountTarget1 =
      .ok ([[{ pattern := "/a",
               regs := [(ANY ||| STUB,
                 HandlerRef.chained [5] (HandlerRef.mountForward (HandlerRef.user 1)))],
               subrouter := none },
             { pattern := "/a/",
               regs := [(ANY ||| STUB,
                 HandlerRef.chained [5] HandlerRef.defaultNotFound)],
               subrouter := none },
             { pattern := "/a/*",
               regs := [(ANY,
                 HandlerRef.chained [5] (HandlerRef.mountForward (HandlerRef.user 1)))],
               subrouter := none }]],
           { tree := 0, middlewares := [5], inline := true,
             handler := some { mws := [] }, notFoundHandler := none },
           mountTarget1) ∧
    HandlerRef.chained [5] (HandlerRef.mountForward mountTarget1.h) ≠
      HandlerRef.mountForward mountTarget1.h ∧
    HandlerRef.chained [5] HandlerRef.defaultNotFound ≠
      ((Chain (newMux 0) [5]).2).notFound := by
  refine ⟨rfl, by rfl, by decide, by decide⟩

/-- C6: `Mount` fails with the configuration error when `pattern + "*"` or
`pattern + "/*"` already exists in the store — the check runs before any
registration, so a failing `Mount` registers nothing (the Go panic aborts
before the first `handle` call; here the error result carries no new
state) — and after any successful `Mount` of `pattern`, a second `Mount`
of the same `pattern` on the resulting router fails with this error. -/
theorem mount_duplicate_pattern_errors
    (heap : TreeHeap) (mx : Mux) (pattern : String) (target target₂ : MountTarget)
    (hvalid : mx.tree < heap.length) :
    ((hasPattern (getTree heap mx.tree) (pattern ++ "*") = true ∨
        hasPattern (getTree heap mx.tree) (pattern ++ "/*") = true) →
      Mount heap mx pattern target =
        .error ("chi: attempting to Mount() a handler on an existing path, '" ++
          pattern ++ "'")) ∧
    (∀ heap' mx' tgt', Mount heap mx pattern target = .ok (heap', mx', tgt') →
      ∃ e, Mount heap' mx' pattern target₂ = .error e) := by
  have hsa : (pattern ++ "/") ++ "*" = pattern ++ "/*" := by
    rw [String.append_assoc, (by decide : ("/" : String) ++ "*" = "/*")]
  constructor
  · intro hconf
    simp only [Mount]
    rw [if_pos hconf]
  · intro heap' mx' tgt' hok
    by_cases hconf : (hasPattern (getTree heap mx.tree) (pattern ++ "*") = true ∨
        hasPattern (getTree heap mx.tree) (pattern ++ "/*") = true)
    · rw [show Mount heap mx pattern target = .error ("chi: attempting to Mount() a handler on an existing path, '" ++ pattern ++ "'") from by simp only [Mount]; rw [if_pos hconf]] at hok
      exact Except.noConfusion hok
    · simp only [Mount] at hok
      rw [if_neg hconf] at hok
      by_cases hsl : pattern.data.getLast? ≠ some '/'
      · rw [if_pos hsl] at hok
        rcases hh1 : handle heap mx (ANY ||| STUB) pattern
            (HandlerRef.mountForward target.h) with e1 | ⟨heap1, mx1, i1⟩
        · simp only [hh1] at hok
          exact Except.noConfusion hok
        · simp only [hh1] at hok
          rcases hh2 : handle heap1 mx1 (ANY ||| STUB) (pattern ++ "/")
              mx.notFound with e2 | ⟨heap2, mx2, i2⟩
          · simp only [hh2] at hok
            exact Except.noConfusion hok
          · simp only [hh2] at hok
            rcases hh3 : handle heap2 mx2
                (if target.subr.isSome then ANY ||| STUB else ANY)
                ((pattern ++ "/") ++ "*")
                (HandlerRef.mountForward target.h) with e3 | ⟨heap3, mx3, i3⟩
            · simp only [hh3] at hok
              exact Except.noConfusion hok
            · simp only [hh3] at hok
              obtain ⟨hm1, hh1', -⟩ := handle_ok_elim hh1
              obtain ⟨hm2, hh2', -⟩ := handle_ok_elim hh2
              obtain ⟨hm3, hh3', -⟩ := handle_ok_elim hh3
              have ht1 : mx1.tree = mx.tree := by
                rw [hm1, (sealMux_fields mx).1]
              have ht2 : mx2.tree = mx.tree := by
                rw [hm2, (sealMux_fields mx1).1, ht1]
              have ht3 : mx3.tree = mx.tree := by
                rw [hm3, (sealMux_fields mx2).1, ht2]
              have hl1 : heap1.length = heap.length := by
                rw [hh1']
                simp
              have hl2 : heap2.length = heap.length := by
                rw [hh2']
                simp [hl1]
              have hl3 : heap3.length = heap.length := by
                rw [hh3']
                simp [hl2]
              have hpat3 : hasPattern (getTree heap3 mx.tree) (pattern ++ "/*") = true := by
                rw [hh3', ht2, getTree_set_self _ _ _ (by rw [hl2]; exact hvalid), ← hsa]
                exact hasPattern_insertRoute_self _ _ _ _
              suffices hdup : hasPattern (getTree heap' mx'.tree) (pattern ++ "*") = true ∨
                  hasPattern (getTree heap' mx'.tree) (pattern ++ "/*") = true by
                refine ⟨"chi: attempting to Mount() a handler on an existing path, '" ++
                  pattern ++ "'", ?_⟩
                simp only [Mount]
                rw [if_pos hdup]
              rcases hsub : target.subr with _ | sid
              · simp only [hsub] at hok
                simp only [Except.ok.injEq, Prod.mk.injEq] at hok
                obtain ⟨hE1, hE2, -⟩ := hok
                right
                rw [← hE1, ← hE2, ht3]
                exact hpat3
              · simp only [hsub] at hok
                simp only [Except.ok.injEq, Prod.mk.injEq] at hok
                obtain ⟨hE1, hE2, -⟩ := hok
                right
                rw [← hE1, ← hE2, ht3, getTree_set_self _ _ _ (by rw [hl3]; exact hvalid),
                  hasPattern_setSubrouter]
                exact hpat3
      · rw [if_neg hsl] at hok
        rcases hh3 : handle heap mx
            (if target.subr.isSome then ANY ||| STUB else ANY)
            (pattern ++ "*")
            (HandlerRef.mountForward target.h) with e3 | ⟨heap3, mx3, i3⟩
        · simp only [hh3] at hok
          exact Except.noConfusion hok
        · simp only [hh3] at hok
          obtain ⟨hm3, hh3', -⟩ := handle_ok_elim hh3
          have ht3 : mx3.tree = mx.tree := by
            rw [hm3, (sealMux_fields mx).1]
          have hl3 : heap3.length = heap.length := by
            rw [hh3']
            simp
          have hpat3 : hasPattern (getTree heap3 mx.tree) (pattern ++ "*") = true := by
            rw [hh3', getTree_set_self _ _ _ hvalid]
            exact hasPattern_insertRoute_self _ _ _ _
          suffices hdup : hasPattern (getTree heap' mx'.tree) (pattern ++ "*") = true ∨
              hasPattern (getTree heap' mx'.tree) (pattern ++ "/*") = true by
            refine ⟨"chi: attempting to Mount() a handler on an existing path, '" ++
              pattern ++ "'", ?_⟩
            simp only [Mount]
            rw [if_pos hdup]
          rcases hsub : target.subr with _ | sid
          · simp only [hsub] at hok
            simp only [Except.ok.injEq, Prod.mk.injEq] at hok
            obtain ⟨hE1, hE2, -⟩ := hok
            left
            rw [← hE1, ← hE2, ht3]
            exact hpat3
          · simp only [hsub] at hok
            simp only [Except.ok.injEq, Prod.mk.injEq] at hok
            obtain ⟨hE1, hE2, -⟩ := hok
            left
            rw [← hE1, ← hE2, ht3, getTree_set_self _ _ _ (by rw [hl3]; exact hvalid),
              hasPattern_setSubrouter]
            exact hpat3

/-- Witness for C6: the second mount of `/a` on the router produced by a
concrete first `Mount` of `/a` fails with the configuration error. -/
theorem mount_duplicate_pattern_errors_witness :
    ∃ e, Mount mountedOnceHeap sealedMuxW "/a" mountTarget1 = .error e :=
  (mount_duplicate_pattern_errors [[]] (newMux 0) "/a" mountTarget1 mountTarget1
      (by decide)).2 mountedOnceHeap sealedMuxW mountTarget1 (by rfl)

end Chi
